import Mathlib

/-!
Verification of the labyrinth audio-segmentation pipeline
(`am_training.ipynb`): the phoneme frame-timeline builder, the segment
writer, the multiprocessing driver and the `IterableAudioStreamDataset`
streaming iterator, shallow-embedded over exact rationals (Python floats
are modelled by `ℚ`; `int()`, `round()`, `//`, slicing and the string
`in` operator are modelled explicitly below).
-/

namespace Labyrinth

/-- Python `int()` applied to a float: truncation toward zero. -/
def pyInt (q : ℚ) : ℤ := if 0 ≤ q then ⌊q⌋ else ⌈q⌉

/-- Python `round()` on a float: round half to even (banker's rounding). -/
def pyRound (q : ℚ) : ℤ :=
  let f := ⌊q⌋
  let r := q - f
  if r < 1/2 then f
  else if 1/2 < r then f + 1
  else if Even f then f else f + 1

/-- Clamp one endpoint of a Python slice `l[a:b]` to `[0, len]`,
including the negative-index-wraps-from-the-end convention. -/
def pySliceIdx (len : ℕ) (i : ℤ) : ℕ :=
  if i < 0 then ((len : ℤ) + i).toNat else min i.toNat len

/-- Python slice `l[a:b]` (step 1). -/
def pySlice {α : Type} (l : List α) (a b : ℤ) : List α :=
  (l.take (pySliceIdx l.length b)).drop (pySliceIdx l.length a)

/-- Does `needle` occur at the head of `hay`? (helper for `pyInStr`). -/
def startsWithL : List Char → List Char → Bool
  | [], _ => true
  | _ :: _, [] => false
  | a :: as, b :: bs => a == b && startsWithL as bs

/-- Substring occurrence on character lists (helper for `pyInStr`). -/
def containsL (needle : List Char) : List Char → Bool
  | [] => startsWithL needle []
  | b :: bs => startsWithL needle (b :: bs) || containsL needle bs

/-- Python `needle in hay` on strings: substring containment. -/
def pyInStr (needle hay : String) : Bool := containsL needle.data hay.data

/-- Python `range(0, stop, step)` for `step > 0`: the list
`[0, step, 2*step, ...)` of all multiples of `step` below `stop`. -/
def pyRangeStep (stop : ℤ) (step : ℕ) : List ℤ :=
  (List.range ((stop.toNat + step - 1) / step)).map (fun k => ((k * step : ℕ) : ℤ))

/-- Notebook config cell: `FRAME_SIZE = 250` (milliseconds). -/
def FRAME_SIZE : ℕ := 250

/-- Notebook config cell: `WINDOW = 50` (milliseconds). -/
def WINDOW : ℕ := 50

/-- One annotation line `start_seconds \t end_seconds \t phoneme`:
a phoneme interval, times in seconds. -/
structure Interval where
  start : ℚ
  end_ : ℚ
  phoneme : String
deriving DecidableEq, Repr

/-- One entry of the list returned by `get_phoneme_timestamps`:
a frame window `[start, end_)` in seconds with its phoneme label. -/
structure Frame where
  start : ℚ
  end_ : ℚ
  phoneme : String
deriving DecidableEq, Repr

/-- Source `get_padded_last_timestamp(timestamp)`:
`diff = (timestamp - int(timestamp)) * 1000`; if `diff` is falsy return
`timestamp` unchanged, else `padding = diff // FRAME_SIZE + 1` and return
`(int(timestamp) + (FRAME_SIZE * padding) / 1000) * 1000`. -/
def get_padded_last_timestamp (timestamp : ℚ) : ℚ :=
  let diff : ℚ := (timestamp - (pyInt timestamp : ℚ)) * 1000
  if diff = 0 then timestamp
  else
    let padding : ℤ := ⌊diff / (FRAME_SIZE : ℚ)⌋ + 1
    ((pyInt timestamp : ℚ) + ((FRAME_SIZE : ℚ) * (padding : ℚ)) / 1000) * 1000

/-- The inner label scan of `get_phoneme_timestamps`: iterate the
intervals in order carrying `sym`; `if float(end) > end_time: break`
returns the current `sym`, otherwise `sym = phoneme` and continue. -/
def scan_label (end_time : ℚ) : List Interval → Option String → Option String
  | [], sym => sym
  | iv :: rest, sym =>
    if iv.end_ > end_time then sym
    else scan_label end_time rest (some iv.phoneme)

/-- Python `sym or "SIL"` where `sym` is `None` or a string:
`None` and the empty string are falsy. -/
def pyOrSIL : Option String → String
  | none => "SIL"
  | some s => if s = "" then "SIL" else s

/-- Source `get_phoneme_timestamps`, with the tab-separated file contents
already parsed into `Interval`s (file I/O and `float()` parsing are the
externalized collaborators).  On an empty annotation the source's
`starts, ends, phonemes = zip(*[...])` raises an uncaught `ValueError`,
modelled by `none`.  Otherwise `last_timestamp = float(ends[-1])`,
`padded_last_timestamp = int(get_padded_last_timestamp(last_timestamp))`,
and one frame per `i in range(0, padded_last_timestamp, WINDOW)` with
window `[i/1000, (i+FRAME_SIZE)/1000)` and label `sym or "SIL"` from the
break-on-first-non-qualifying scan. -/
def get_phoneme_timestamps (intervals : List Interval) : Option (List Frame) :=
  match intervals with
  | [] => none
  | iv :: rest =>
    let last_timestamp := (List.getLast (iv :: rest) (List.cons_ne_nil iv rest)).end_
    let padded_last_timestamp := pyInt (get_padded_last_timestamp last_timestamp)
    some ((pyRangeStep padded_last_timestamp WINDOW).map (fun (i : ℤ) =>
      let start_time : ℚ := (i : ℚ) / 1000
      let end_time : ℚ := ((i : ℚ) + (FRAME_SIZE : ℚ)) / 1000
      { start := start_time, end_ := end_time,
        phoneme := pyOrSIL (scan_label end_time (iv :: rest) none) }))

/-- The `data_size` variable of `save_phoneme_frames`:
`int((sr * FRAME_SIZE) / 1000)`. -/
def data_size (sr : ℕ) : ℤ := pyInt ((sr : ℚ) * (FRAME_SIZE : ℚ) / 1000)

/-- The pad step of `save_phoneme_frames`: `if len(data) < data_size:
data = np.pad(data, (0, data_size - len(data)), 'constant', 0)`. -/
def padRight (ds : ℤ) (data : List ℤ) : List ℤ :=
  if (data.length : ℤ) < ds then
    data ++ List.replicate (ds - (data.length : ℤ)).toNat 0
  else data

/-- One output file written by `save_phoneme_frames`
(`data/phonemes/<name>__<phoneme>__<i+1>.wav`): its phoneme tag, its
1-based frame index and its samples. -/
structure Segment where
  phoneme : String
  idx : ℕ
  data : List ℤ
deriving DecidableEq, Repr

/-- The `for i, phoneme_timestamp in enumerate(phoneme_timestamps)` loop of
`save_phoneme_frames`, carrying the running index `i`: a frame whose
phoneme contains `"oov"` is skipped; otherwise the slice
`wav[int(start * sr):int(end * sr)]` is right-padded with zeros when
shorter than `data_size` and written as file number `i + 1`. -/
def save_frames_loop (sr : ℕ) (wav : List ℤ) : ℕ → List Frame → List Segment
  | _, [] => []
  | i, ft :: rest =>
    if pyInStr "oov" ft.phoneme then save_frames_loop sr wav (i + 1) rest
    else
      { phoneme := ft.phoneme, idx := i + 1,
        data := padRight (data_size sr)
          (pySlice wav (pyInt (ft.start * (sr : ℚ))) (pyInt (ft.end_ * (sr : ℚ)))) }
        :: save_frames_loop sr wav (i + 1) rest

/-- The write phase of `save_phoneme_frames` for one recording: all
segments written for waveform `wav` at rate `sr` given the timeline. -/
def save_phoneme_frames_core (sr : ℕ) (wav : List ℤ) (timeline : List Frame) : List Segment :=
  save_frames_loop sr wav 0 timeline

/-- Python exceptions that can escape the modelled fragment. -/
inductive PyExc where
  | FileNotFoundError
  | ValueError
deriving DecidableEq, Repr

/-- Source `save_phoneme_frames(audio_path)` with its file-system inputs
made explicit: `annotation` is the parsed content of
`data/raw/<name>_labels.txt` (`none` when that file is absent, in which
case `open` raises `FileNotFoundError`), and `audio` is the `(sr, wav)`
result of `wavfile.read(audio_path)` (`none` when the audio file is
absent).  The body is wrapped in `try ... except FileNotFoundError:
pass`, so a missing file yields a normal return with no segment written;
an empty annotation raises `ValueError` inside `get_phoneme_timestamps`
(`zip(*[])` unpack), which the `except` clause does not catch. -/
def save_phoneme_frames ( annotation : Option (List Interval)) (audio : Option (ℕ × List ℤ)) :
    Except PyExc (List Segment) :=
  match annotation with
  | none => Except.ok []
  | some intervals =>
    match get_phoneme_timestamps intervals with
    | none => Except.error PyExc.ValueError
    | some phoneme_timestamps =>
      match audio with
      | none => Except.ok []
      | some (sr, wav) => Except.ok (save_phoneme_frames_core sr wav phoneme_timestamps)

/-- Source `mp__save_phoneme_frames(fn, data, workers=None)`, reduced to its
observable plan: the worker count the pool is built with
(`workers or mp.cpu_count()`) and the list `pool.map(save_phoneme_frames, ·)`
iterates.  `mp.cpu_count()` and the module-level global `audio_files` are
passed explicitly.  Note the source body maps over the global
`audio_files`, not over the `data` parameter, and hardcodes
`save_phoneme_frames` rather than using `fn`; both parameters are unused. -/
def mp__save_phoneme_frames {α : Type} (fn : α) (data : List String) (workers : Option ℕ)
    (cpu_count : ℕ) (audio_files : List String) : ℕ × List String :=
  let w := match workers with
    | none => cpu_count
    | some n => if n = 0 then cpu_count else n
  (w, audio_files)

/-- Recursion core of `grouper`: consumes at least one element of the list
per emitted group (the group size `n` is positive in every reachable call),
so fuel `l.length` suffices; structural recursion on the fuel keeps the
definition kernel-computable. -/
def grouperFuel {α : Type} (n : ℕ) : ℕ → List α → List (List (Option α))
  | _, [] => []
  | 0, _ :: _ => []
  | fuel + 1, x :: xs =>
    if n = 0 then []
    else (((x :: xs).take n).map some ++ List.replicate (n - (x :: xs).length) none)
      :: grouperFuel n fuel (xs.drop (n - 1))

/-- Source `grouper(iterable, n, fillvalue=None)`:
`zip_longest(*([iter(iterable)] * n), fillvalue=None)`, i.e. consecutive
groups of `n` items pulled from one shared iterator, the short final group
padded with the fill value.  Present items are `some`, fills are `none`. -/
def grouper {α : Type} (n : ℕ) (l : List α) : List (List (Option α)) :=
  grouperFuel n l.length l

/-- The `(id, num_workers)` pair read from
`torch.utils.data.get_worker_info()` in `__iter__`. -/
structure WorkerInfo where
  id : ℕ
  num_workers : ℕ
deriving DecidableEq, Repr

/-- `files_per_batch = int(np.ceil(len(self.files) / self.batch_size))`
in `__iter__`. -/
def files_per_batch (numFiles batch_size : ℕ) : ℤ :=
  ⌈(numFiles : ℚ) / (batch_size : ℚ)⌉

/-- `work_load = len(self.files) // n_workers` in the attached branch of
`__iter__`. -/
def work_load (numFiles n_workers : ℕ) : ℕ := numFiles / n_workers

/-- `start_idx = worker_id * work_load` in the attached branch of
`__iter__`. -/
def start_idx (numFiles n_workers worker_id : ℕ) : ℕ :=
  worker_id * work_load numFiles n_workers

/-- `end_idx = start_idx + work_load` in the attached branch of
`__iter__`. -/
def end_idx (numFiles n_workers worker_id : ℕ) : ℕ :=
  start_idx numFiles n_workers worker_id + work_load numFiles n_workers

/-- The `(start_idx, end_idx)` pair `__iter__` slices `self.files` with:
`(0, files_per_batch)` when `get_worker_info()` returns `None`, else the
per-worker `(start_idx, end_idx)`. -/
def iterIndexRange (numFiles batch_size : ℕ) : Option WorkerInfo → ℤ × ℤ
  | none => (0, files_per_batch numFiles batch_size)
  | some w => ((start_idx numFiles w.num_workers w.id : ℤ),
               (end_idx numFiles w.num_workers w.id : ℤ))

/-- The batch list `__iter__` builds and hands to `stream_batch`:
`grouper(self.files[start_idx:end_idx], self.batch_size)`. -/
def iterBatches {α : Type} (files : List α) (batch_size : ℕ) (wi : Option WorkerInfo) :
    List (List (Option α)) :=
  grouper batch_size
    (pySlice files (iterIndexRange files.length batch_size wi).1
      (iterIndexRange files.length batch_size wi).2)

/-- The module-level function `stream_batch(self, batched_files)` has two
required positional parameters. -/
def stream_batch_required_params : ℕ := 2

/-- The call `stream_batch(grouper(self.files[start_idx:end_idx],
self.batch_size))` on the final line of `__iter__` passes exactly one
positional argument. -/
def iter_call_args : ℕ := 1

/-- `IterableAudioStreamDataset` state after `__init__`. -/
structure IterableAudioStreamDataset where
  files : List String
  batch_size : ℕ
deriving DecidableEq, Repr

/-- `IterableAudioStreamDataset.__init__(data_path, batch_size)` with the
`glob(f"{data_path}/*.wav")` result passed explicitly: stores the file list
and batch size after asserting the list is non-empty and
`batch_size > 0` (an `AssertionError` escapes otherwise). -/
def IterableAudioStreamDataset.init (files : List String) (batch_size : ℤ) :
    Except String IterableAudioStreamDataset :=
  if files = [] then Except.error "AssertionError"
  else if batch_size ≤ 0 then Except.error "AssertionError"
  else Except.ok ⟨files, batch_size.toNat⟩

/-- `IterableAudioStreamDataset.__iter__`: computes the index range, slices
and groups the file list, then evaluates
`stream_batch(grouper(...))`.  `stream_batch` is a module-level function
with two required positional parameters (`self`, `batched_files`) and this
call passes one argument, so Python raises `TypeError` at the call, before
any batch is yielded.  A typed embedding cannot express the ill-arity call
itself, so the dynamic arity check Python performs is modelled explicitly
by comparing `iter_call_args` with `stream_batch_required_params`. -/
def IterableAudioStreamDataset.iter (ds : IterableAudioStreamDataset)
    (wi : Option WorkerInfo) : Except String (List (List (Option String))) :=
  if iter_call_args < stream_batch_required_params then Except.error "TypeError"
  else Except.ok (iterBatches ds.files ds.batch_size wi)

/-- Modelled from the spec (§4.2, for claim C6):
`samplesPerFrame = round(sr * FRAME_SIZE / 1000)` — the spec's stated
formula for the fixed frame sample count, to be compared with the code's
`data_size`. -/
def samplesPerFrame_spec (sr : ℕ) : ℤ := pyRound ((sr : ℚ) * (FRAME_SIZE : ℚ) / 1000)

/-- Modelled from the spec (§4.1, for claim C3): the frame's label is the
phoneme of the LAST interval in the given input order whose `end` does not
exceed the frame's end boundary; `"SIL"` if no interval qualifies. -/
def specLabelC3 (end_time : ℚ) (l : List Interval) : String :=
  match (l.filter (fun ivl => decide (ivl.end_ ≤ end_time))).getLast? with
  | none => "SIL"
  | some ivl => ivl.phoneme

/-! ### Helper lemmas -/

lemma pyInt_of_nonneg (q : ℚ) (h : 0 ≤ q) : pyInt q = ⌊q⌋ := by
  simp [pyInt, h]

lemma pyInt_nonneg (q : ℚ) (h : 0 ≤ q) : 0 ≤ pyInt q := by
  rw [pyInt_of_nonneg q h]
  exact Int.floor_nonneg.mpr h

/-- Unfolded form of `get_padded_last_timestamp` with the `let`s inlined. -/
lemma get_padded_last_timestamp_eq (t : ℚ) :
    get_padded_last_timestamp t =
      if (t - (pyInt t : ℚ)) * 1000 = 0 then t
      else ((pyInt t : ℚ) +
        ((FRAME_SIZE : ℚ) *
          ((⌊(t - (pyInt t : ℚ)) * 1000 / (FRAME_SIZE : ℚ)⌋ + 1 : ℤ) : ℚ)) / 1000) * 1000 :=
  rfl

lemma get_padded_last_timestamp_nonneg (t : ℚ) (ht : 0 ≤ t) :
    0 ≤ get_padded_last_timestamp t := by
  rw [get_padded_last_timestamp_eq]
  split
  · exact ht
  · have hfl : (0 : ℚ) ≤ (pyInt t : ℚ) := by exact_mod_cast pyInt_nonneg t ht
    have hdiff : (0 : ℚ) ≤ (t - (pyInt t : ℚ)) * 1000 := by
      have h1 : (pyInt t : ℚ) ≤ t := by
        rw [pyInt_of_nonneg t ht]; exact_mod_cast Int.floor_le t
      nlinarith
    have hp : (1 : ℚ) ≤ ((⌊(t - (pyInt t : ℚ)) * 1000 / (FRAME_SIZE : ℚ)⌋ + 1 : ℤ) : ℚ) := by
      have h0 : (0 : ℤ) ≤ ⌊(t - (pyInt t : ℚ)) * 1000 / (FRAME_SIZE : ℚ)⌋ :=
        Int.floor_nonneg.mpr (div_nonneg hdiff (by norm_num [FRAME_SIZE]))
      exact_mod_cast by omega
    have hF : (0 : ℚ) < (FRAME_SIZE : ℚ) := by norm_num [FRAME_SIZE]
    nlinarith

/-- Ceiling division of naturals through `ℚ`:
`⌈n / d⌉ = (n + d - 1) / d` with `/` the truncating natural division. -/
lemma ceil_natCast_div (n d : ℕ) (hd : 0 < d) :
    ⌈(n : ℚ) / (d : ℚ)⌉ = (((n + d - 1) / d : ℕ) : ℤ) := by
  have hd0 : (0 : ℚ) < (d : ℚ) := by exact_mod_cast hd
  have hmod : d * ((n + d - 1) / d) + (n + d - 1) % d = n + d - 1 :=
    Nat.div_add_mod _ _
  have hr : (n + d - 1) % d < d := Nat.mod_lt _ hd
  set q := (n + d - 1) / d with hq
  have key : n ≤ d * q ∧ d * q + 1 ≤ n + d := by
    generalize d * q = m at hmod ⊢
    omega
  have h1q : (n : ℚ) ≤ (d : ℚ) * (q : ℚ) := by exact_mod_cast key.1
  have h2q : (d : ℚ) * (q : ℚ) + 1 ≤ (n : ℚ) + (d : ℚ) := by exact_mod_cast key.2
  have hcast : (((q : ℕ) : ℤ) : ℚ) = (q : ℚ) := by push_cast; rfl
  rw [Int.ceil_eq_iff]
  refine ⟨?_, ?_⟩
  · rw [lt_div_iff₀ hd0, hcast]
    nlinarith
  · rw [div_le_iff₀ hd0, hcast]
    nlinarith

lemma pyRangeStep_length (stop : ℤ) (step : ℕ) :
    (pyRangeStep stop step).length = (stop.toNat + step - 1) / step := by
  simp [pyRangeStep]

lemma pyRangeStep_get (stop : ℤ) (step : ℕ) (k : ℕ)
    (hk : k < (pyRangeStep stop step).length) :
    (pyRangeStep stop step).get ⟨k, hk⟩ = ((k * step : ℕ) : ℤ) := by
  simp [pyRangeStep]

/-- `get_phoneme_timestamps` on a non-empty interval list, in closed form. -/
lemma get_phoneme_timestamps_cons (iv : Interval) (rest : List Interval) :
    get_phoneme_timestamps (iv :: rest) =
      some ((pyRangeStep (pyInt (get_padded_last_timestamp
          (List.getLast (iv :: rest) (List.cons_ne_nil iv rest)).end_)) WINDOW).map
        (fun (i : ℤ) =>
          ({ start := (i : ℚ) / 1000,
             end_ := ((i : ℚ) + (FRAME_SIZE : ℚ)) / 1000,
             phoneme := pyOrSIL (scan_label (((i : ℚ) + (FRAME_SIZE : ℚ)) / 1000)
               (iv :: rest) none) } : Frame))) :=
  rfl

/-- The frame at index `k` of the timeline, in closed form. -/
lemma get_phoneme_timestamps_get (iv : Interval) (rest : List Interval)
    (frames : List Frame) (k : ℕ)
    (h : get_phoneme_timestamps (iv :: rest) = some frames) (hk : k < frames.length) :
    frames.get ⟨k, hk⟩ =
      { start := ((k * WINDOW : ℕ) : ℚ) / 1000,
        end_ := (((k * WINDOW : ℕ) : ℚ) + (FRAME_SIZE : ℚ)) / 1000,
        phoneme := pyOrSIL (scan_label ((((k * WINDOW : ℕ) : ℚ) + (FRAME_SIZE : ℚ)) / 1000)
          (iv :: rest) none) } := by
  rw [get_phoneme_timestamps_cons] at h
  set padded := pyInt (get_padded_last_timestamp
    (List.getLast (iv :: rest) (List.cons_ne_nil iv rest)).end_) with hpadded
  obtain rfl := (Option.some.inj h).symm
  have hk' : k < (pyRangeStep padded WINDOW).length := by
    simpa using hk
  rw [List.get_map]
  simp only [pyRangeStep_get padded WINDOW k hk']
  push_cast
  rfl

lemma get_phoneme_timestamps_length (iv : Interval) (rest : List Interval)
    (frames : List Frame)
    (h : get_phoneme_timestamps (iv :: rest) = some frames) :
    frames.length = ((pyInt (get_padded_last_timestamp
      (List.getLast (iv :: rest) (List.cons_ne_nil iv rest)).end_)).toNat + WINDOW - 1)
        / WINDOW := by
  rw [get_phoneme_timestamps_cons] at h
  obtain rfl := (Option.some.inj h).symm
  simp [pyRangeStep_length]

/-! ### Claim theorems -/

/-- C2: For every non-empty interval list whose last end is nonnegative, the
timeline produced by `get_phoneme_timestamps` has exactly
`ceil(paddedEnd / WINDOW)` frames, where `paddedEnd` is the code's
`int(get_padded_last_timestamp(lastEnd))`; every two consecutive frames'
start times differ by exactly `WINDOW` milliseconds (`WINDOW / 1000` in the
second units the frames carry); and when the last interval's end falls
exactly on a whole-second boundary (the millisecond remainder
`(lastEnd - int(lastEnd)) * 1000` is zero) the padding step is a no-op:
`get_padded_last_timestamp` returns `lastEnd` unchanged, so `paddedEnd =
lastEnd` and no extra frame is introduced. -/
theorem timeline_shape (iv : Interval) (rest : List Interval) (frames : List Frame)
    (h : get_phoneme_timestamps (iv :: rest) = some frames)
    (hpos : 0 ≤ (List.getLast (iv :: rest) (List.cons_ne_nil iv rest)).end_) :
    (frames.length : ℤ) =
      ⌈((pyInt (get_padded_last_timestamp
          (List.getLast (iv :: rest) (List.cons_ne_nil iv rest)).end_) : ℚ) / (WINDOW : ℚ))⌉
    ∧ (∀ (k : ℕ) (hk : k + 1 < frames.length),
        (frames.get ⟨k + 1, hk⟩).start - (frames.get ⟨k, Nat.lt_of_succ_lt hk⟩).start
          = (WINDOW : ℚ) / 1000)
    ∧ ((((List.getLast (iv :: rest) (List.cons_ne_nil iv rest)).end_ -
          (pyInt (List.getLast (iv :: rest) (List.cons_ne_nil iv rest)).end_ : ℚ)) * 1000 = 0 →
        get_padded_last_timestamp (List.getLast (iv :: rest) (List.cons_ne_nil iv rest)).end_
          = (List.getLast (iv :: rest) (List.cons_ne_nil iv rest)).end_)) := by
  set t := (List.getLast (iv :: rest) (List.cons_ne_nil iv rest)).end_ with ht
  refine ⟨?_, ?_, ?_⟩
  · have hlen := get_phoneme_timestamps_length iv rest frames h
    have hpadnn : 0 ≤ pyInt (get_padded_last_timestamp t) :=
      pyInt_nonneg _ (get_padded_last_timestamp_nonneg t hpos)
    set p := pyInt (get_padded_last_timestamp t) with hp
    have hcast : (p : ℚ) = ((p.toNat : ℕ) : ℚ) := by
      exact_mod_cast (Int.toNat_of_nonneg hpadnn).symm
    rw [hcast, ceil_natCast_div p.toNat WINDOW (by norm_num [WINDOW])]
    rw [hlen]
  · intro k hk
    have h1 := get_phoneme_timestamps_get iv rest frames (k + 1) h hk
    have h2 := get_phoneme_timestamps_get iv rest frames k h (Nat.lt_of_succ_lt hk)
    rw [h1, h2]
    push_cast
    ring
  · intro hz
    rw [get_padded_last_timestamp_eq, if_pos hz]

/-- Witness for `timeline_shape` at the single-interval annotation
`[(0.10, 0.15, "ah_S")]`. -/
theorem timeline_shape_witness :
    ([(⟨0, 1/4, "ah_S"⟩ : Frame), ⟨1/20, 3/10, "ah_S"⟩, ⟨1/10, 7/20, "ah_S"⟩,
        ⟨3/20, 2/5, "ah_S"⟩, ⟨1/5, 9/20, "ah_S"⟩].length : ℤ) =
      ⌈((pyInt (get_padded_last_timestamp
          (List.getLast [(⟨1/10, 3/20, "ah_S"⟩ : Interval)]
            (List.cons_ne_nil _ _)).end_) : ℚ) / (WINDOW : ℚ))⌉
    ∧ (∀ (k : ℕ) (hk : k + 1 <
          [(⟨0, 1/4, "ah_S"⟩ : Frame), ⟨1/20, 3/10, "ah_S"⟩, ⟨1/10, 7/20, "ah_S"⟩,
           ⟨3/20, 2/5, "ah_S"⟩, ⟨1/5, 9/20, "ah_S"⟩].length),
        ([(⟨0, 1/4, "ah_S"⟩ : Frame), ⟨1/20, 3/10, "ah_S"⟩, ⟨1/10, 7/20, "ah_S"⟩,
          ⟨3/20, 2/5, "ah_S"⟩, ⟨1/5, 9/20, "ah_S"⟩].get ⟨k + 1, hk⟩).start -
          ([(⟨0, 1/4, "ah_S"⟩ : Frame), ⟨1/20, 3/10, "ah_S"⟩, ⟨1/10, 7/20, "ah_S"⟩,
            ⟨3/20, 2/5, "ah_S"⟩, ⟨1/5, 9/20, "ah_S"⟩].get
              ⟨k, Nat.lt_of_succ_lt hk⟩).start = (WINDOW : ℚ) / 1000)
    ∧ (((List.getLast [(⟨1/10, 3/20, "ah_S"⟩ : Interval)] (List.cons_ne_nil _ _)).end_ -
          (pyInt (List.getLast [(⟨1/10, 3/20, "ah_S"⟩ : Interval)]
            (List.cons_ne_nil _ _)).end_ : ℚ)) * 1000 = 0 →
        get_padded_last_timestamp
            (List.getLast [(⟨1/10, 3/20, "ah_S"⟩ : Interval)] (List.cons_ne_nil _ _)).end_
          = (List.getLast [(⟨1/10, 3/20, "ah_S"⟩ : Interval)] (List.cons_ne_nil _ _)).end_) :=
  timeline_shape ⟨1/10, 3/20, "ah_S"⟩ []
    [⟨0, 1/4, "ah_S"⟩, ⟨1/20, 3/10, "ah_S"⟩, ⟨1/10, 7/20, "ah_S"⟩,
     ⟨3/20, 2/5, "ah_S"⟩, ⟨1/5, 9/20, "ah_S"⟩]
    (by with_unfolding_all decide) (by with_unfolding_all decide)

/-- C9: on the single annotation `[(0.10, 0.15, "ah_S")]` with
`FRAME_SIZE = 250` and `WINDOW = 50`, the millisecond remainder of
`lastEnd = 0.15` is `150`, the number of padding blocks is
`150 // 250 + 1 = 1`, the padded end is `250` milliseconds, and
`get_phoneme_timestamps` yields exactly 5 frames starting at
`0, 50, 100, 150, 200` ms (`0, 1/20, 1/10, 3/20, 1/5` in seconds), each
window `250` ms long. -/
theorem scenario_single_interval :
    (((3/20 : ℚ) - (pyInt (3/20 : ℚ) : ℚ)) * 1000 = 150)
    ∧ (⌊(150 : ℚ) / (FRAME_SIZE : ℚ)⌋ + 1 : ℤ) = 1
    ∧ get_padded_last_timestamp (3/20) = 250
    ∧ pyInt (get_padded_last_timestamp (3/20)) = 250
    ∧ get_phoneme_timestamps [⟨1/10, 3/20, "ah_S"⟩] = some
        [⟨0, 1/4, "ah_S"⟩, ⟨1/20, 3/10, "ah_S"⟩, ⟨1/10, 7/20, "ah_S"⟩,
         ⟨3/20, 2/5, "ah_S"⟩, ⟨1/5, 9/20, "ah_S"⟩] := by
  with_unfolding_all decide

/-- C3 (counterexample): for the interval list
`[(0, 0.1, "a"), (0, 5, "b"), (0, 0.2, "c")]` the frame with window
`[0, 0.25)` is labeled `"a"` by the code (the scan breaks at `"b"`,
whose end `5` exceeds the frame end, before ever seeing `"c"`), while the
last interval in input order whose end does not exceed `0.25` is
`"c"` — so the claimed label rule disagrees with the code. -/
theorem label_scan_counterexample :
    get_phoneme_timestamps [⟨0, 1/10, "a"⟩, ⟨0, 5, "b"⟩, ⟨0, 1/5, "c"⟩]
      = some [⟨0, 1/4, "a"⟩, ⟨1/20, 3/10, "a"⟩, ⟨1/10, 7/20, "a"⟩,
              ⟨3/20, 2/5, "a"⟩, ⟨1/5, 9/20, "a"⟩]
    ∧ specLabelC3 (1/4) [⟨0, 1/10, "a"⟩, ⟨0, 5, "b"⟩, ⟨0, 1/5, "c"⟩] = "c"
    ∧ ("a" : String) ≠ "c" := by
  with_unfolding_all decide

/-- C1 (evaluation at the failing input): with 7 items and `batch_size = 3`
and no worker identity, `__iter__` slices `files[0:ceil(7/3)] = files[0:3]`
— a file-index bound, not a batch count — so only the single batch
`(i0, i1, i2)` is built, not the three claimed batches covering the whole
list. -/
theorem unattached_stream_eval :
    iterBatches [0, 1, 2, 3, 4, 5, 6] 3 none = [[some 0, some 1, some 2]]
    ∧ iterBatches [0, 1, 2, 3, 4, 5, 6] 3 none ≠
        [[some 0, some 1, some 2], [some 3, some 4, some 5], [some 6, none, none]] := by
  with_unfolding_all decide

/-- C7 (evaluation at the failing input): `mp__save_phoneme_frames` builds
its pool with `workers or mp.cpu_count()` (here `4`), but maps
`save_phoneme_frames` over the module global `audio_files`
(here `["b.wav"]`), not over its `data` argument (here `["a.wav"]`). -/
theorem driver_eval :
    mp__save_phoneme_frames "save_phoneme_frames" ["a.wav"] none 4 ["b.wav"]
      = (4, ["b.wav"])
    ∧ (["b.wav"] : List String) ≠ ["a.wav"] := by
  with_unfolding_all decide

/-- C8: when the annotation file of a recording is absent, the
`FileNotFoundError` raised by `open` is caught by the
`except FileNotFoundError: pass` clause of `save_phoneme_frames`: the
recording is skipped silently — no exception escapes and no segment is
written — whatever the audio input is. -/
theorem missing_annotation_skips (audio : Option (ℕ × List ℤ)) :
    save_phoneme_frames none audio = Except.ok [] := rfl

/-- C10: for every successfully constructed `IterableAudioStreamDataset`
(non-empty file list, positive batch size), requesting its iterator
raises `TypeError` before a single batch is produced: `__iter__` calls the
module-level two-parameter function `stream_batch(self, batched_files)`
with a single argument. -/
theorem iter_raises (files : List String) (batch_size : ℤ)
    (ds : IterableAudioStreamDataset) (wi : Option WorkerInfo)
    (h : IterableAudioStreamDataset.init files batch_size = Except.ok ds) :
    ds.iter wi = Except.error "TypeError" := by
  simp [IterableAudioStreamDataset.iter, iter_call_args, stream_batch_required_params]

/-- Witness for `iter_raises` on a one-file dataset with batch size 1. -/
theorem iter_raises_witness :
    IterableAudioStreamDataset.iter ⟨["f.wav"], 1⟩ none = Except.error "TypeError" :=
  iter_raises ["f.wav"] 1 ⟨["f.wav"], 1⟩ none rfl

/-- C6 (counterexample): at sample rate `sr = 7` the code's
`data_size = int(sr * FRAME_SIZE / 1000) = int(1.75) = 1`, whereas the
claimed `samplesPerFrame = round(sr * FRAME_SIZE / 1000) = 2`; the segment
written for the frame `[0, 0.25)` holds exactly 1 sample, not the claimed
`samplesPerFrame = 2` — truncation, not rounding, is what the code does. -/
theorem samples_per_frame_counterexample :
    save_phoneme_frames_core 7 [5, 5, 5] [⟨0, 1/4, "x"⟩] = [⟨"x", 1, [5]⟩]
    ∧ data_size 7 = 1
    ∧ samplesPerFrame_spec 7 = 2
    ∧ ((1 : ℤ) ≠ 2) := by
  with_unfolding_all decide

/-- The break-on-first-non-qualifying scan computes the last element of the
longest qualifying prefix: `scan_label` equals `takeWhile` followed by
`getLast?`, falling back to the accumulator. -/
lemma scan_label_eq_takeWhile (e : ℚ) (l : List Interval) :
    ∀ sym : Option String,
      scan_label e l sym =
        (((l.takeWhile (fun ivl => decide (ivl.end_ ≤ e))).getLast?).map
          Interval.phoneme).or sym := by
  induction l with
  | nil => intro sym; simp [scan_label, Option.or]
  | cons ivl rest ih =>
    intro sym
    by_cases hgt : ivl.end_ > e
    · have hneg : ¬(decide (ivl.end_ ≤ e)) = true := by simp [not_le.mpr hgt]
      rw [@List.takeWhile_cons_of_neg Interval (fun ivl => decide (ivl.end_ ≤ e))
        ivl rest hneg]
      simp [scan_label, hgt, Option.or]
    · have hle : ivl.end_ ≤ e := not_lt.mp hgt
      have hpos : (decide (ivl.end_ ≤ e) : Bool) = true := by simp [hle]
      rw [@List.takeWhile_cons_of_pos Interval (fun ivl => decide (ivl.end_ ≤ e))
        ivl rest hpos]
      have hscan : scan_label e (ivl :: rest) sym
          = scan_label e rest (some ivl.phoneme) := by
        simp [scan_label, hgt]
      rw [hscan, ih (some ivl.phoneme)]
      cases htw : rest.takeWhile (fun ivl => decide (ivl.end_ ≤ e)) with
      | nil => simp [Option.or]
      | cons y ys =>
        rw [List.getLast?_cons_cons]
        cases hys : (y :: ys).getLast? with
        | none => simp at hys
        | some j => simp [Option.or]

/-- C3 (amended): for every non-empty interval list, the label of each
timeline frame is the phoneme of the last interval of the LONGEST PREFIX of
the input consisting of intervals whose end does not exceed the frame's end
boundary — the scan breaks at the first interval ending after the frame's
end, so later qualifying intervals are never consulted — and the label is
`"SIL"` when that prefix is empty (or when its last phoneme is the empty
string, which Python's `or` treats as falsy). -/
theorem frame_label_amended (iv : Interval) (rest : List Interval)
    (frames : List Frame) (k : ℕ)
    (h : get_phoneme_timestamps (iv :: rest) = some frames) (hk : k < frames.length) :
    (frames.get ⟨k, hk⟩).phoneme =
      pyOrSIL ((((iv :: rest).takeWhile
          (fun ivl => decide (ivl.end_ ≤ (frames.get ⟨k, hk⟩).end_))).getLast?).map
        Interval.phoneme) := by
  have hg := get_phoneme_timestamps_get iv rest frames k h hk
  rw [hg]
  dsimp only
  rw [scan_label_eq_takeWhile, Option.or_none]

/-- Witness for `frame_label_amended`: frame 0 of the timeline of
`[(0, 0.1, "a"), (0, 5, "b"), (0, 0.2, "c")]` is labeled by the last
element of the qualifying prefix, namely `"a"`. -/
theorem frame_label_amended_witness :
    ([(⟨0, 1/4, "a"⟩ : Frame), ⟨1/20, 3/10, "a"⟩, ⟨1/10, 7/20, "a"⟩,
        ⟨3/20, 2/5, "a"⟩, ⟨1/5, 9/20, "a"⟩].get ⟨0, by decide⟩).phoneme =
      pyOrSIL ((([(⟨0, 1/10, "a"⟩ : Interval), ⟨0, 5, "b"⟩, ⟨0, 1/5, "c"⟩].takeWhile
          (fun ivl => decide (ivl.end_ ≤
            (([(⟨0, 1/4, "a"⟩ : Frame), ⟨1/20, 3/10, "a"⟩, ⟨1/10, 7/20, "a"⟩,
               ⟨3/20, 2/5, "a"⟩, ⟨1/5, 9/20, "a"⟩].get ⟨0, by decide⟩).end_)))).getLast?).map
        Interval.phoneme) :=
  frame_label_amended ⟨0, 1/10, "a"⟩ [⟨0, 5, "b"⟩, ⟨0, 1/5, "c"⟩]
    [⟨0, 1/4, "a"⟩, ⟨1/20, 3/10, "a"⟩, ⟨1/10, 7/20, "a"⟩, ⟨3/20, 2/5, "a"⟩, ⟨1/5, 9/20, "a"⟩]
    0 (by with_unfolding_all decide) (by decide)

/-- C4: the attached branch of `__iter__` selects the contiguous index
range `[id * workLoad, id * workLoad + workLoad)` with
`workLoad = len // count`; for a fixed count the ranges of two distinct
ids are disjoint, every range is a subset of `[0, len)`, and a trailing
index `j` with `count * workLoad ≤ j` (in particular the
`len - count * workLoad` leftover indices) lies in no worker's range. -/
theorem partition_range (len bs count id1 id2 j : ℕ) (hc : 1 ≤ count)
    (h1 : id1 < count) (h2 : id2 < count) :
    iterIndexRange len bs (some ⟨id1, count⟩) =
      ((start_idx len count id1 : ℤ), (end_idx len count id1 : ℤ))
    ∧ (id1 ≠ id2 →
        ¬(start_idx len count id1 ≤ j ∧ j < end_idx len count id1 ∧
          start_idx len count id2 ≤ j ∧ j < end_idx len count id2))
    ∧ (start_idx len count id1 ≤ j → j < end_idx len count id1 → j < len)
    ∧ (count * work_load len count ≤ j →
        ¬(start_idx len count id1 ≤ j ∧ j < end_idx len count id1)) := by
  have hkey : ∀ i : ℕ, i < count →
      i * work_load len count + work_load len count ≤ count * work_load len count := by
    intro i hi
    have h := Nat.mul_le_mul_right (work_load len count) (Nat.succ_le_of_lt hi)
    simpa [Nat.succ_mul] using h
  have hlen : count * work_load len count ≤ len := by
    rw [mul_comm, work_load]
    exact Nat.div_mul_le_self len count
  refine ⟨rfl, ?_, ?_, ?_⟩
  · intro hne hin
    obtain ⟨ha1, ha2, hb1, hb2⟩ := hin
    simp only [start_idx, end_idx] at ha1 ha2 hb1 hb2
    rcases Nat.lt_or_ge id1 id2 with hlt | hge
    · have hstep : id1 * work_load len count + work_load len count
          ≤ id2 * work_load len count := by
        have h := Nat.mul_le_mul_right (work_load len count) (Nat.succ_le_of_lt hlt)
        simpa [Nat.succ_mul] using h
      linarith
    · have hlt2 : id2 < id1 := Nat.lt_of_le_of_ne hge (fun he => hne he.symm)
      have hstep : id2 * work_load len count + work_load len count
          ≤ id1 * work_load len count := by
        have h := Nat.mul_le_mul_right (work_load len count) (Nat.succ_le_of_lt hlt2)
        simpa [Nat.succ_mul] using h
      linarith
  · intro ha hb
    simp only [start_idx, end_idx] at ha hb
    have := hkey id1 h1
    linarith
  · intro hj hin
    obtain ⟨ha, hb⟩ := hin
    simp only [start_idx, end_idx] at ha hb
    have := hkey id1 h1
    linarith

/-- Witness for `partition_range` at the spec's scenario: 10 items, 3
workers (`workLoad = 3`), ids 0 and 1, trailing index 9. -/
theorem partition_range_witness :
    iterIndexRange 10 5 (some ⟨0, 3⟩) =
      ((start_idx 10 3 0 : ℤ), (end_idx 10 3 0 : ℤ))
    ∧ ((0 : ℕ) ≠ 1 →
        ¬(start_idx 10 3 0 ≤ 9 ∧ 9 < end_idx 10 3 0 ∧
          start_idx 10 3 1 ≤ 9 ∧ 9 < end_idx 10 3 1))
    ∧ (start_idx 10 3 0 ≤ 9 → 9 < end_idx 10 3 0 → 9 < 10)
    ∧ (3 * work_load 10 3 ≤ 9 →
        ¬(start_idx 10 3 0 ≤ 9 ∧ 9 < end_idx 10 3 0)) :=
  partition_range 10 5 3 0 1 9 (by decide) (by decide) (by decide)

lemma padRight_length (ds : ℤ) (l : List ℤ) : ds ≤ ((padRight ds l).length : ℤ) := by
  unfold padRight
  split
  · rw [List.length_append, List.length_replicate]
    push_cast
    omega
  · omega

/-- Membership in the write loop: every written segment is oov-free and
its samples are the right-padded truncating slice of some timeline
frame. -/
lemma save_frames_loop_mem (sr : ℕ) (wav : List ℤ) :
    ∀ (i : ℕ) (tl : List Frame) (seg : Segment),
      seg ∈ save_frames_loop sr wav i tl →
      pyInStr "oov" seg.phoneme = false ∧
      ∃ ft ∈ tl, pyInStr "oov" ft.phoneme = false ∧
        seg.data = padRight (data_size sr)
          (pySlice wav (pyInt (ft.start * (sr : ℚ))) (pyInt (ft.end_ * (sr : ℚ)))) := by
  intro i tl
  induction tl generalizing i with
  | nil => intro seg hseg; simp [save_frames_loop] at hseg
  | cons ft rest ih =>
    intro seg hseg
    cases hoov : pyInStr "oov" ft.phoneme with
    | true =>
      rw [save_frames_loop, if_pos (by rw [hoov])] at hseg
      obtain ⟨h1, ft', hft', h2, h3⟩ := ih (i + 1) seg hseg
      exact ⟨h1, ft', List.mem_cons_of_mem ft hft', h2, h3⟩
    | false =>
      rw [save_frames_loop, if_neg (by rw [hoov]; exact Bool.false_ne_true)] at hseg
      rcases List.mem_cons.mp hseg with heq | hmem
      · subst heq
        exact ⟨hoov, ft, List.mem_cons_self ft rest, hoov, rfl⟩
      · obtain ⟨h1, ft', hft', h2, h3⟩ := ih (i + 1) seg hmem
        exact ⟨h1, ft', List.mem_cons_of_mem ft hft', h2, h3⟩

/-- C5: `save_phoneme_frames` never writes a segment with fewer than
`data_size` samples (a short slice is zero-padded on the right to exactly
`data_size`), and never writes a segment whose phoneme contains the
out-of-vocabulary substring `"oov"`. -/
theorem write_invariants (sr : ℕ) (wav : List ℤ) (timeline : List Frame)
    (seg : Segment) (h : seg ∈ save_phoneme_frames_core sr wav timeline) :
    data_size sr ≤ (seg.data.length : ℤ) ∧ pyInStr "oov" seg.phoneme = false := by
  obtain ⟨hoov, ft, hft, hoovft, hdata⟩ := save_frames_loop_mem sr wav 0 timeline seg h
  refine ⟨?_, hoov⟩
  rw [hdata]
  exact padRight_length _ _

/-- Witness for `write_invariants` on the one-frame recording at
`sr = 7`. -/
theorem write_invariants_witness :
    data_size 7 ≤ (([5] : List ℤ).length : ℤ) ∧ pyInStr "oov" "x" = false :=
  write_invariants 7 [5, 5, 5] [⟨0, 1/4, "x"⟩] ⟨"x", 1, [5]⟩
    (by with_unfolding_all decide)

/-- The write loop in closed form: `enumFrom`-indexed filter-map. -/
lemma save_frames_loop_eq_filterMap (sr : ℕ) (wav : List ℤ) :
    ∀ (i : ℕ) (tl : List Frame),
      save_frames_loop sr wav i tl =
        (tl.enumFrom i).filterMap (fun p =>
          if pyInStr "oov" p.2.phoneme = true then none
          else some { phoneme := p.2.phoneme, idx := p.1 + 1,
                      data := padRight (data_size sr)
                        (pySlice wav (pyInt (p.2.start * (sr : ℚ)))
                          (pyInt (p.2.end_ * (sr : ℚ)))) }) := by
  intro i tl
  induction tl generalizing i with
  | nil => simp [save_frames_loop, List.enumFrom]
  | cons ft rest ih =>
    cases hoov : pyInStr "oov" ft.phoneme with
    | true => simp [save_frames_loop, List.enumFrom, hoov, ih]
    | false => simp [save_frames_loop, List.enumFrom, hoov, ih]

/-- C6 (amended): for every frame the slice boundaries are computed by
TRUNCATION to an integer sample index — `start_sample = int(start * sr)`,
`end_sample = int(end * sr)` — and the fixed frame length is
`data_size = int(sr * FRAME_SIZE / 1000)`; a slice shorter than
`data_size` is zero-padded on the right to exactly `data_size`, so every
written segment contains AT LEAST `data_size` samples (an over-long slice
is written unshortened). -/
theorem write_slice_formula (sr : ℕ) (wav : List ℤ) (timeline : List Frame) :
    save_phoneme_frames_core sr wav timeline =
      timeline.enum.filterMap (fun p =>
        if pyInStr "oov" p.2.phoneme = true then none
        else some { phoneme := p.2.phoneme, idx := p.1 + 1,
                    data := padRight (data_size sr)
                      (pySlice wav (pyInt (p.2.start * (sr : ℚ)))
                        (pyInt (p.2.end_ * (sr : ℚ)))) })
    ∧ ∀ seg ∈ save_phoneme_frames_core sr wav timeline,
        data_size sr ≤ (seg.data.length : ℤ) := by
  constructor
  · rw [save_phoneme_frames_core, save_frames_loop_eq_filterMap]
    rfl
  · intro seg hseg
    obtain ⟨-, ft, -, -, hdata⟩ := save_frames_loop_mem sr wav 0 timeline seg hseg
    rw [hdata]
    exact padRight_length _ _

end Labyrinth
